import Mathlib

/-!
Shallow embedding of the job-completion notification core of
`Chat_to_music/backend/src/index.ts`:

* `resultsStore` / `subscribers` — the two in-memory `Map`s (Correlation
  Store and Subscription Registry), modelled as functions `String → Option _`
  with JavaScript `Map.set` / `Map.delete` / `Map.has` semantics;
* `pushSSE` — the fan-out primitive (writes an SSE event to every
  subscriber of a clip id, then deletes the registry entry on `complete`);
* `eventsHandler` — `app.get(/events)`, the live subscription endpoint;
* `unsubscribeOne` — one step of the `req.on(close)` handler;
* `sunoCallback` — `app.post(/suno/callback)`, the webhook ingestion
  endpoint;
* `statusHandler` — `app.get(/status)`, the reconciliation endpoint,
  with the outbound third-party query supplied as an oracle argument.

JavaScript `undefined` values that can be stored (e.g. `clips[0]` of an
empty array) are modelled with `Option`; string truthiness (the empty string is falsy)
is modelled by `jsTruthy`.
-/

/-- A clip entry as the third-party service reports it: the fields the
backend actually reads (`status`, `id`, `clipId`) plus the descriptive
fields; every field may be absent (`none` = JS `undefined`). -/
structure Clip where
  status : Option String
  id : Option String
  clipId : Option String
  title : Option String
  audioUrl : Option String
deriving DecidableEq

/-- A server-held SSE response channel (`Response`).  `cid` identifies the
connection (JS reference identity); `isOpen` tells whether a `res.write`
succeeds or throws (closed connection). -/
structure Conn where
  cid : Nat
  isOpen : Bool
deriving DecidableEq

/-- A JavaScript `Map` with string keys, as a lookup function. -/
abbrev JsMap (α : Type) : Type := String → Option α

namespace JsMap

/-- `map.get(k)`. -/
def get {α : Type} (m : JsMap α) (k : String) : Option α := m k

/-- `map.set(k, v)` — unconditionally binds `k` to `v`. -/
def set {α : Type} (m : JsMap α) (k : String) (v : α) : JsMap α :=
  fun k' => if k' = k then some v else m k'

/-- `map.delete(k)`. -/
def del {α : Type} (m : JsMap α) (k : String) : JsMap α :=
  fun k' => if k' = k then none else m k'

/-- `map.has(k)`. -/
def has {α : Type} (m : JsMap α) (k : String) : Bool := (m k).isSome

/-- `new Map()`. -/
def empty {α : Type} : JsMap α := fun _ => none

end JsMap

/-- The two process-wide stores:
`resultsStore : Map<string, any>` (the stored value may itself be the JS
`undefined`, hence the inner `Option`), and
`subscribers : Map<string, Array<Response>>`. -/
structure ServerState where
  resultsStore : JsMap (Option Clip)
  subscribers : JsMap (List Conn)

/-- The `data` carried by an SSE write: the `/events` fast path writes the
stored value directly, the webhook fan-out writes `{data: {data: [clips]}}`,
and the `/status` backfill writes the clip. -/
inductive SSEData where
  | storeVal (v : Option Clip)
  | wrapped (clips : List Clip)
  | clip (c : Clip)
deriving DecidableEq

/-- One successful `res.write` of an SSE event to one connection. -/
structure Delivery where
  conn : Conn
  event : String
  data : SSEData
deriving DecidableEq

/-- `pushSSE(clipId, event, data)`: looks up the subscribers of `clipId`
(returning at once when the entry is absent), attempts a write to each one
(a write to a closed connection throws and is swallowed by the
`try/catch`), and deletes the registry entry when the event is
`complete`.  Returns the new state together with the writes that
succeeded. -/
def pushSSE (st : ServerState) (clipId : String) (event : String) (data : SSEData) :
    ServerState × List Delivery :=
  match st.subscribers.get clipId with
  | none => (st, [])
  | some subs =>
    let ds := subs.filterMap (fun r => if r.isOpen then some ⟨r, event, data⟩ else none)
    let subs' := if event = "complete" then st.subscribers.del clipId else st.subscribers
    ({ st with subscribers := subs' }, ds)

/-- JS `String.prototype.split(',')` at the character level. -/
def splitCommaChars (cs : List Char) : List (List Char) :=
  cs.foldr (fun ch acc =>
    if ch = ',' then [] :: acc
    else match acc with
      | [] => [[ch]]
      | a :: rest => (ch :: a) :: rest) [[]]

/-- JS `String.prototype.trim()` at the character level. -/
def trimChars (cs : List Char) : List Char :=
  ((cs.dropWhile Char.isWhitespace).reverse.dropWhile Char.isWhitespace).reverse

/-- `raw.split(',').map(i => i.trim()).filter(Boolean)` — the id-list
parsing shared by `/events` and `/status` (an empty string is falsy, so
blank segments are dropped). -/
def parseIds (raw : String) : List String :=
  (((splitCommaChars raw.toList).map trimChars).map String.mk).filter (fun s => s ≠ "")

/-- JS string truthiness: `undefined` and the empty string are falsy. -/
def jsTruthy (o : Option String) : Bool := (o.getD "") ≠ ""

/-- JS `a || b` on two possibly-absent strings. -/
def jsOr (a b : Option String) : Option String := if jsTruthy a then a else b

/-- One iteration of the `clipIds.forEach` loop of `app.get(/events)`:
if `resultsStore` already has the id, immediately write the stored value
as a `complete` event to the caller; otherwise append the callers
connection to the subscriber array of the id (`subscribers.get(id) || []`,
push, set). -/
def eventsStep (store : JsMap (Option Clip)) (res : Conn)
    (acc : JsMap (List Conn) × List Delivery) (id : String) :
    JsMap (List Conn) × List Delivery :=
  if (store.get id).isSome then
    (acc.1, acc.2 ++ [⟨res, "complete", SSEData.storeVal ((store.get id).join)⟩])
  else
    (acc.1.set id (((acc.1.get id).getD []) ++ [res]), acc.2)

/-- Result of a `/events` request: the HTTP status (400 when no ids), the
writes performed at attach time (fast path), and the new server state. -/
structure EventsResult where
  status : Nat
  writes : List Delivery
  state : ServerState

/-- `app.get(/events)`: parse the `clipIds` query parameter, reject an
empty list with 400, otherwise run the `forEach` over the parsed ids. -/
def eventsHandler (st : ServerState) (res : Conn) (raw : String) : EventsResult :=
  let clipIds := parseIds raw
  if clipIds.length = 0 then ⟨400, [], st⟩
  else
    let p := clipIds.foldl (eventsStep st.resultsStore res) (st.subscribers, [])
    ⟨200, p.2, { st with subscribers := p.1 }⟩

/-- The per-id step of the `req.on(close)` handler of `/events`: look up
the array of the id (return when absent), drop every occurrence of the closing
connection, re-store the array when non-empty and delete the entry when
empty. -/
def unsubscribeOne (subs : JsMap (List Conn)) (res : Conn) (id : String) :
    JsMap (List Conn) :=
  match subs.get id with
  | none => subs
  | some arr =>
    let filtered := arr.filter (fun r => r ≠ res)
    if filtered.length > 0 then subs.set id filtered else subs.del id

/-- The whole `req.on(close)` handler: unsubscribe the connection from
every id of the original request. -/
def closeHandler (subs : JsMap (List Conn)) (res : Conn) (clipIds : List String) :
    JsMap (List Conn) :=
  clipIds.foldl (fun s id => unsubscribeOne s res id) subs

/-- The webhook payload as the handler reads it: `payload?.data?.data`
(`some` when it is a JS array, `none` when absent or not an array),
`payload?.data.task_id` and `payload?.task_id`. -/
structure CallbackPayload where
  data_data : Option (List Clip)
  data_task_id : Option String
  task_id : Option String

/-- Result of a webhook request: new state, successful fan-out writes, and
the HTTP status — `none` when the handler returned without sending any
response (the missing-task-id path). -/
structure CallbackResult where
  state : ServerState
  deliveries : List Delivery
  response : Option Nat

/-- `app.post(/suno/callback)`: 400 when `payload?.data?.data` is not an
array; silent return (no response at all) when
`payload?.data.task_id || payload?.task_id` is falsy; otherwise
`resultsStore.set(id, clips[0])` (unconditional overwrite; `clips[0]` of an
empty array is `undefined`), fan out `{data: {data: [clips]}}` via
`pushSSE`, and answer 200. -/
def sunoCallback (st : ServerState) (p : CallbackPayload) : CallbackResult :=
  match p.data_data with
  | none => ⟨st, [], some 400⟩
  | some clips =>
    let i := jsOr p.data_task_id p.task_id
    if jsTruthy i then
      let idv := i.getD ""
      let st1 := { st with resultsStore := st.resultsStore.set idv clips.head? }
      let q := pushSSE st1 idv "complete" (SSEData.wrapped clips)
      ⟨q.1, q.2, some 200⟩
    else ⟨st, [], none⟩

/-- The `ids.forEach` partition of `app.get(/status)`: resolved ids push
their stored value onto `found`, unresolved ids push themselves onto
`pending`. -/
def statusPartition (store : JsMap (Option Clip)) (ids : List String) :
    List (Option Clip) × List String :=
  ids.foldl (fun acc id =>
    if store.has id then (acc.1 ++ [(store.get id).join], acc.2)
    else (acc.1, acc.2 ++ [id])) ([], [])

/-- The per-clip step of the `list.forEach` backfill loop of `/status`: only
clips with `status === `complete`` and a truthy `clip.id || clip.clipId`
are stored (`resultsStore.set`), appended to `found`, and fanned out via
`pushSSE`.  The `pending` array is never touched here. -/
def backfillStep (acc : ServerState × List (Option Clip) × List Delivery)
    (clip : Clip) : ServerState × List (Option Clip) × List Delivery :=
  if clip.status = some "complete" then
    let oid := jsOr clip.id clip.clipId
    if jsTruthy oid then
      let idv := oid.getD ""
      let st1 := { acc.1 with resultsStore := acc.1.resultsStore.set idv (some clip) }
      let q := pushSSE st1 idv "complete" (SSEData.clip clip)
      (q.1, acc.2.1 ++ [some clip], acc.2.2 ++ q.2)
    else acc
  else acc

/-- Result of a `/status` request: new state, side-effect fan-out writes,
HTTP status, and the `{found, pending}` body. -/
structure StatusResult where
  state : ServerState
  deliveries : List Delivery
  status : Nat
  found : List (Option Clip)
  pending : List String

/-- `app.get(/status)`: parse `ids` (400 when empty), partition against
the Correlation Store, and when some ids are pending consult the
third-party API (`api = none` models the outbound query failing — the
`catch` only logs).  Completed clips from the API response are backfilled
by `backfillStep`; the response body is `{found, pending}` with `pending`
exactly as computed by the initial partition. -/
def statusHandler (st : ServerState) (idsRaw : String) (api : Option (List Clip)) :
    StatusResult :=
  let ids := parseIds idsRaw
  if ids.length = 0 then ⟨st, [], 400, [], []⟩
  else
    let p := statusPartition st.resultsStore ids
    if p.2.length > 0 then
      match api with
      | none => ⟨st, [], 200, p.1, p.2⟩
      | some list =>
        let q := list.foldl backfillStep (st, p.1, [])
        ⟨q.1, q.2.2, 200, q.2.1, p.2⟩
    else ⟨st, [], 200, p.1, p.2⟩

/-! ### Lemmas about the embedded maps and the fan-out primitive -/

theorem JsMap.get_set_eq {α : Type} (m : JsMap α) (k : String) (v : α) :
    (m.set k v).get k = some v := by
  simp [JsMap.get, JsMap.set]

theorem JsMap.get_set_ne {α : Type} (m : JsMap α) (k k' : String) (v : α)
    (h : k' ≠ k) : (m.set k v).get k' = m.get k' := by
  simp [JsMap.get, JsMap.set, h]

theorem JsMap.get_del_eq {α : Type} (m : JsMap α) (k : String) :
    (m.del k).get k = none := by
  simp [JsMap.get, JsMap.del]

/-- `pushSSE` never touches the Correlation Store. -/
theorem pushSSE_resultsStore (st : ServerState) (j ev : String) (d : SSEData) :
    (pushSSE st j ev d).1.resultsStore = st.resultsStore := by
  unfold pushSSE
  cases st.subscribers.get j <;> rfl

/-- After a `complete` fan-out the Subscription Registry holds no entry for
the resolved id (either it was already absent, or it is deleted). -/
theorem pushSSE_complete_clears (st : ServerState) (j : String) (d : SSEData) :
    (pushSSE st j "complete" d).1.subscribers.get j = none := by
  cases hs : st.subscribers.get j with
  | none => simp [pushSSE, hs]
  | some subs => simp [pushSSE, hs, JsMap.get_del_eq]

/-- The successful writes of one fan-out, counted per connection: each
occurrence of an open connection in the subscriber array yields one
write. -/
theorem deliveries_countP (ev : String) (d : SSEData) (c : Conn) (subs : List Conn) :
    ((subs.filterMap (fun r => if r.isOpen then some (Delivery.mk r ev d) else none)).countP
        (fun dl => decide (dl.conn = c)))
      = subs.countP (fun r => decide (r = c) && r.isOpen) := by
  induction subs with
  | nil => rfl
  | cons r rest ih =>
    by_cases hc : r = c
    · subst hc
      cases hr : r.isOpen <;>
        simp [List.filterMap_cons, List.countP_cons, hr, ih]
    · cases hr : r.isOpen <;>
        simp [List.filterMap_cons, List.countP_cons, hr, hc, ih]

/-- For an open connection, counting its occurrences among open
subscribers is counting its occurrences. -/
theorem countP_open_of_open (c : Conn) (hc : c.isOpen = true) (l : List Conn) :
    l.countP (fun r => decide (r = c) && r.isOpen)
      = l.countP (fun r => decide (r = c)) := by
  refine List.countP_congr ?_
  intro r _
  by_cases h : r = c <;> simp [h, hc]

/-! ### Claim theorems: the fan-out primitive (C4, C7) -/

/-- C4: for every job identifier `j` and every open listener registered for
`j` exactly once before resolution, the `complete` fan-out of `resolve`
(`pushSSE` with the `complete` event) delivers to that listener exactly
once — no duplicates, no drops — and afterwards the Subscription Registry
holds no entry for `j`. -/
theorem resolve_delivers_exactly_once (st : ServerState) (j : String) (d : SSEData)
    (c : Conn)
    (h1 : ((st.subscribers.get j).getD []).countP (fun r => decide (r = c)) = 1)
    (h2 : c.isOpen = true) :
    ((pushSSE st j "complete" d).2.countP (fun dl => decide (dl.conn = c))) = 1 ∧
    (pushSSE st j "complete" d).1.subscribers.get j = none := by
  refine ⟨?_, pushSSE_complete_clears st j d⟩
  cases hs : st.subscribers.get j with
  | none => simp [hs] at h1
  | some subs =>
    simp only [pushSSE, hs]
    rw [deliveries_countP, countP_open_of_open c h2]
    simpa [hs] using h1

/-- Witness for C4 at a one-listener state. -/
theorem resolve_delivers_exactly_once_witness :
    ((pushSSE ⟨JsMap.empty, JsMap.set JsMap.empty "w" [⟨5, true⟩]⟩ "w" "complete"
        (SSEData.wrapped [])).2.countP (fun dl => decide (dl.conn = ⟨5, true⟩))) = 1 ∧
    (pushSSE ⟨JsMap.empty, JsMap.set JsMap.empty "w" [⟨5, true⟩]⟩ "w" "complete"
        (SSEData.wrapped [])).1.subscribers.get "w" = none :=
  resolve_delivers_exactly_once ⟨JsMap.empty, JsMap.set JsMap.empty "w" [⟨5, true⟩]⟩
    "w" (SSEData.wrapped []) ⟨5, true⟩ (by decide) (by decide)

/-- C7: during fan-out, a closed connection among the drained listeners
(whose write throws and is swallowed) does not prevent the write to any
other open listener, and the fan-out returns normally to its caller. -/
theorem fanout_isolates_closed_connections (st : ServerState) (j : String)
    (d : SSEData) (c cbad : Conn)
    (hbadMem : cbad ∈ (st.subscribers.get j).getD []) (hbad : cbad.isOpen = false)
    (hcMem : c ∈ (st.subscribers.get j).getD []) (hc : c.isOpen = true) :
    Delivery.mk c "complete" d ∈ (pushSSE st j "complete" d).2 := by
  cases hs : st.subscribers.get j with
  | none => simp [hs] at hcMem
  | some subs =>
    simp only [pushSSE, hs]
    rw [List.mem_filterMap]
    exact ⟨c, by simpa [hs] using hcMem, by simp [hc]⟩

/-- Witness for C7: one closed and one open listener; the open one is
still written to. -/
theorem fanout_isolates_closed_connections_witness :
    Delivery.mk ⟨2, true⟩ "complete" (SSEData.wrapped [])
      ∈ (pushSSE ⟨JsMap.empty, JsMap.set JsMap.empty "w" [⟨1, false⟩, ⟨2, true⟩]⟩
          "w" "complete" (SSEData.wrapped [])).2 :=
  fanout_isolates_closed_connections
    ⟨JsMap.empty, JsMap.set JsMap.empty "w" [⟨1, false⟩, ⟨2, true⟩]⟩ "w"
    (SSEData.wrapped []) ⟨2, true⟩ ⟨1, false⟩ (by decide) (by decide) (by decide)
    (by decide)

/-! ### Claim theorem: the close handler (C8) -/

/-- C8: the per-id unsubscribe step of the close handler is total and
idempotent — removing a connection from an id it is not registered under
is a no-op (whether the entry is absent or just does not contain the
connection), running it twice equals running it once — and it never leaves
an empty listener array behind: every id bound to a non-empty array before
is bound to a non-empty array or unbound after. -/
theorem unsubscribe_idempotent_no_dangling (subs : JsMap (List Conn)) (res : Conn)
    (id : String) :
    (subs.get id = none → unsubscribeOne subs res id = subs) ∧
    (∀ arr, subs.get id = some arr → res ∉ arr → arr ≠ [] →
      unsubscribeOne subs res id = subs) ∧
    unsubscribeOne (unsubscribeOne subs res id) res id = unsubscribeOne subs res id ∧
    (∀ k, subs.get k ≠ some [] → (unsubscribeOne subs res id).get k ≠ some []) := by
  refine ⟨?_, ?_, ?_, ?_⟩
  · intro h
    simp [unsubscribeOne, h]
  · intro arr h hres hne
    have hfil : arr.filter (fun r => r ≠ res) = arr :=
      List.filter_eq_self.mpr (fun a ha => by
        simp only [decide_eq_true_eq]
        exact fun hh => hres (hh ▸ ha))
    have hlen : arr.length > 0 := List.length_pos.mpr hne
    simp only [unsubscribeOne, h, hfil, hlen, if_pos]
    funext k
    by_cases hk : k = id
    · subst hk
      simpa [JsMap.set] using h.symm
    · simp [JsMap.set, hk]
  · cases h : subs.get id with
    | none => simp [unsubscribeOne, h]
    | some arr =>
      by_cases hl : (arr.filter (fun r => r ≠ res)).length > 0
      · have h1 : unsubscribeOne subs res id
            = subs.set id (arr.filter (fun r => r ≠ res)) := by
          simp only [unsubscribeOne, h]
          rw [if_pos hl]
        rw [h1]
        have h2 : (subs.set id (arr.filter (fun r => r ≠ res))).get id
            = some (arr.filter (fun r => r ≠ res)) := JsMap.get_set_eq _ _ _
        have hfil2 : (arr.filter (fun r => r ≠ res)).filter (fun r => r ≠ res)
            = arr.filter (fun r => r ≠ res) :=
          List.filter_eq_self.mpr (fun a ha => (List.mem_filter.mp ha).2)
        simp only [unsubscribeOne, h2, hfil2, hl, if_pos]
        funext k
        by_cases hk : k = id <;> simp [JsMap.set, hk]
      · have h1 : unsubscribeOne subs res id = subs.del id := by
          simp only [unsubscribeOne, h]
          rw [if_neg hl]
        rw [h1]
        simp [unsubscribeOne, JsMap.get_del_eq]
  · intro k hk
    cases h : subs.get id with
    | none => simpa [unsubscribeOne, h] using hk
    | some arr =>
      by_cases hl : (arr.filter (fun r => r ≠ res)).length > 0
      · simp only [unsubscribeOne, h, hl, if_pos]
        by_cases hki : k = id
        · subst hki
          rw [JsMap.get_set_eq]
          intro hcon
          rw [Option.some_inj] at hcon
          rw [hcon] at hl
          simp at hl
        · rw [JsMap.get_set_ne _ _ _ _ hki]
          exact hk
      · simp only [unsubscribeOne, h, hl, if_neg, if_false]
        by_cases hki : k = id
        · subst hki
          rw [JsMap.get_del_eq]
          exact fun hcon => Option.noConfusion hcon
        · have : (subs.del id).get k = subs.get k := by
            simp [JsMap.get, JsMap.del, hki]
          rw [this]
          exact hk

/-- Witness for C8: unsubscribing from an absent id, from an id the
connection is not under, and the no-empty-array invariant, at concrete
states. -/
theorem unsubscribe_idempotent_no_dangling_witness :
    unsubscribeOne (JsMap.set JsMap.empty "a" [⟨1, true⟩]) ⟨2, true⟩ "b"
        = JsMap.set JsMap.empty "a" [⟨1, true⟩] ∧
    unsubscribeOne (JsMap.set JsMap.empty "a" [⟨1, true⟩]) ⟨2, true⟩ "a"
        = JsMap.set JsMap.empty "a" [⟨1, true⟩] ∧
    (unsubscribeOne (JsMap.set JsMap.empty "a" [⟨1, true⟩]) ⟨1, true⟩ "a").get "a"
        ≠ some [] :=
  ⟨(unsubscribe_idempotent_no_dangling (JsMap.set JsMap.empty "a" [⟨1, true⟩])
      ⟨2, true⟩ "b").1 (by decide),
   (unsubscribe_idempotent_no_dangling (JsMap.set JsMap.empty "a" [⟨1, true⟩])
      ⟨2, true⟩ "a").2.1 [⟨1, true⟩] (by decide) (by decide) (by decide),
   (unsubscribe_idempotent_no_dangling (JsMap.set JsMap.empty "a" [⟨1, true⟩])
      ⟨1, true⟩ "a").2.2.2 "a" (by decide)⟩

/-! ### Lemmas about the `/events` attach loop -/

/-- One attach-loop step only appends to the write list. -/
theorem eventsStep_writes_append (store : JsMap (Option Clip)) (res : Conn)
    (acc : JsMap (List Conn) × List Delivery) (e : String) :
    ∃ s, (eventsStep store res acc e).2 = acc.2 ++ s := by
  unfold eventsStep
  by_cases h : (store.get e).isSome
  · exact ⟨_, by rw [if_pos h]⟩
  · exact ⟨[], by rw [if_neg h]; simp⟩

/-- The attach loop only appends to the write list. -/
theorem eventsLoop_writes_mono (store : JsMap (Option Clip)) (res : Conn) :
    ∀ (ids : List String) (acc : JsMap (List Conn) × List Delivery),
      ∃ t, (ids.foldl (eventsStep store res) acc).2 = acc.2 ++ t := by
  intro ids
  induction ids with
  | nil => exact fun acc => ⟨[], by simp⟩
  | cons e rest ih =>
    intro acc
    obtain ⟨s, hs⟩ := eventsStep_writes_append store res acc e
    obtain ⟨t, ht⟩ := ih (eventsStep store res acc e)
    exact ⟨s ++ t, by rw [List.foldl_cons, ht, hs, List.append_assoc]⟩

/-- Every resolved id of the request gets its stored value written to the
caller during the attach loop. -/
theorem eventsLoop_mem_write (store : JsMap (Option Clip)) (res : Conn) (id : String)
    (v : Option Clip) (hres : store.get id = some v) :
    ∀ (ids : List String) (acc : JsMap (List Conn) × List Delivery), id ∈ ids →
      Delivery.mk res "complete" (SSEData.storeVal v)
        ∈ (ids.foldl (eventsStep store res) acc).2 := by
  intro ids
  induction ids with
  | nil => intro acc h; cases h
  | cons e rest ih =>
    intro acc hmem
    rw [List.foldl_cons]
    rcases List.mem_cons.mp hmem with he | he
    · subst he
      obtain ⟨t, ht⟩ := eventsLoop_writes_mono store res rest (eventsStep store res acc id)
      rw [ht]
      have hw : Delivery.mk res "complete" (SSEData.storeVal v)
          ∈ (eventsStep store res acc id).2 := by
        unfold eventsStep
        rw [hres]
        simp
      exact List.mem_append.mpr (Or.inl hw)
    · exact ih (eventsStep store res acc e) he

/-- The attach loop never touches the registry entry of an id that is
already resolved in the Correlation Store. -/
theorem eventsLoop_subscribers_resolved (store : JsMap (Option Clip)) (res : Conn)
    (id : String) (hres : (store.get id).isSome = true) :
    ∀ (ids : List String) (acc : JsMap (List Conn) × List Delivery),
      ((ids.foldl (eventsStep store res) acc).1).get id = (acc.1).get id := by
  intro ids
  induction ids with
  | nil => intro acc; rfl
  | cons e rest ih =>
    intro acc
    rw [List.foldl_cons, ih]
    unfold eventsStep
    by_cases h : (store.get e).isSome
    · rw [if_pos h]
    · rw [if_neg h]
      have hne : id ≠ e := by
        intro hh
        rw [hh] at hres
        exact h hres
      exact JsMap.get_set_ne _ _ _ _ hne

/-- Counting a connection in the registry entry of an unresolved id: the
attach loop adds one occurrence per occurrence of the id in the request. -/
theorem eventsLoop_count_unresolved (store : JsMap (Option Clip)) (res : Conn)
    (id : String) (hunres : store.get id = none) :
    ∀ (ids : List String) (acc : JsMap (List Conn) × List Delivery),
      ((((ids.foldl (eventsStep store res) acc).1).get id).getD []).countP
          (fun r => decide (r = res))
        = (((acc.1).get id).getD []).countP (fun r => decide (r = res))
          + ids.countP (fun s => decide (s = id)) := by
  intro ids
  induction ids with
  | nil => intro acc; simp
  | cons e rest ih =>
    intro acc
    rw [List.foldl_cons, ih, List.countP_cons]
    have hstep : ((((eventsStep store res acc e).1).get id).getD []).countP
          (fun r => decide (r = res))
        = (((acc.1).get id).getD []).countP (fun r => decide (r = res))
          + (if decide (e = id) = true then 1 else 0) := by
      unfold eventsStep
      by_cases he : e = id
      · subst he
        rw [if_neg (by simp [hunres])]
        simp [JsMap.get_set_eq, List.countP_append]
      · by_cases hsome : (store.get e).isSome
        · rw [if_pos hsome]
          simp [he]
        · rw [if_neg hsome]
          have hne : id ≠ e := fun hh => he hh.symm
          rw [JsMap.get_set_ne _ _ _ _ hne]
          simp [he]
    rw [hstep]
    omega

/-! ### Claim theorems: the live subscription endpoint (C5, C6) -/

/-- C5 counterexample: a single attach request naming the same unresolved
id twice (`clipIds=x,x`) registers the same connection twice, and the
subsequent resolution of `x` writes the `complete` result to that one
connection twice — duplicates in the request are not ignored and the same
attach request is delivered to twice for the same job identifier. -/
theorem events_duplicate_id_double_delivery :
    ((pushSSE (eventsHandler ⟨JsMap.empty, JsMap.empty⟩ ⟨0, true⟩ "x,x").state
        "x" "complete" (SSEData.wrapped [])).2.countP
        (fun dl => decide (dl.conn = ⟨0, true⟩))) = 2 := by
  decide

/-- C5 amended: the `/events` handler processes every occurrence of a job
identifier in the request separately.  For an unresolved id, an open
connection is registered once per occurrence, so the `complete` fan-out at
resolution delivers to the connection exactly (previous registrations +
number of occurrences of the id in the request) times — once per
occurrence, not at most once. -/
theorem events_delivers_once_per_occurrence (st : ServerState) (res : Conn)
    (raw id : String) (d : SSEData)
    (hunres : st.resultsStore.get id = none) (hopen : res.isOpen = true) :
    ((pushSSE (eventsHandler st res raw).state id "complete" d).2.countP
        (fun dl => decide (dl.conn = res)))
      = ((st.subscribers.get id).getD []).countP (fun r => decide (r = res))
        + (parseIds raw).countP (fun s => decide (s = id)) := by
  have hpush : ∀ st' : ServerState,
      ((pushSSE st' id "complete" d).2.countP (fun dl => decide (dl.conn = res)))
        = ((st'.subscribers.get id).getD []).countP (fun r => decide (r = res)) := by
    intro st'
    cases hs : st'.subscribers.get id with
    | none => simp [pushSSE, hs]
    | some subs =>
      simp only [pushSSE, hs]
      rw [deliveries_countP, countP_open_of_open res hopen]
      simp
  rw [hpush]
  unfold eventsHandler
  by_cases hlen : (parseIds raw).length = 0
  · have hnil : parseIds raw = [] := List.length_eq_zero.mp hlen
    simp [hlen, hnil]
  · simp only [hlen, if_false]
    exact eventsLoop_count_unresolved st.resultsStore res id hunres (parseIds raw)
      (st.subscribers, [])

/-- Witness for the amended C5: the duplicate request `x,x` on a fresh
state yields 0 + 2 deliveries. -/
theorem events_delivers_once_per_occurrence_witness :
    ((pushSSE (eventsHandler ⟨JsMap.empty, JsMap.empty⟩ ⟨7, true⟩ "x,x,y").state
        "x" "complete" (SSEData.clip ⟨none, none, none, none, none⟩)).2.countP
        (fun dl => decide (dl.conn = ⟨7, true⟩)))
      = (((⟨JsMap.empty, JsMap.empty⟩ : ServerState).subscribers.get "x").getD
          []).countP (fun r => decide (r = ⟨7, true⟩))
        + (parseIds "x,x,y").countP (fun s => decide (s = "x")) :=
  events_delivers_once_per_occurrence ⟨JsMap.empty, JsMap.empty⟩ ⟨7, true⟩ "x,x,y"
    "x" (SSEData.clip ⟨none, none, none, none, none⟩) (by decide) (by decide)

/-- C6: an attach request for an id whose record is already in the
Correlation Store is served the stored value immediately over its own
channel (a `complete` write in the attach loop) and the Subscription
Registry entry for that id is left exactly as it was — the caller is never
added as a subscriber of that id. -/
theorem events_fast_path_not_registered (st : ServerState) (res : Conn)
    (raw id : String) (v : Option Clip)
    (hmem : id ∈ parseIds raw) (hres : st.resultsStore.get id = some v) :
    Delivery.mk res "complete" (SSEData.storeVal v) ∈ (eventsHandler st res raw).writes ∧
    (eventsHandler st res raw).state.subscribers.get id = st.subscribers.get id := by
  have hne : parseIds raw ≠ [] := List.ne_nil_of_mem hmem
  have hlen : ¬(parseIds raw).length = 0 := by
    simpa [List.length_eq_zero] using hne
  unfold eventsHandler
  simp only [hlen, if_false]
  constructor
  · exact eventsLoop_mem_write st.resultsStore res id v hres (parseIds raw)
      (st.subscribers, []) hmem
  · exact eventsLoop_subscribers_resolved st.resultsStore res id (by simp [hres])
      (parseIds raw) (st.subscribers, [])

/-- Witness for C6: id `y` already resolved to a record; attaching for
`y,z` serves it immediately and registers nothing under `y`. -/
theorem events_fast_path_not_registered_witness :
    Delivery.mk ⟨3, true⟩ "complete"
        (SSEData.storeVal (some ⟨none, none, none, some "T", none⟩))
      ∈ (eventsHandler ⟨JsMap.set JsMap.empty "y" (some ⟨none, none, none, some "T", none⟩),
          JsMap.empty⟩ ⟨3, true⟩ "y,z").writes ∧
    (eventsHandler ⟨JsMap.set JsMap.empty "y" (some ⟨none, none, none, some "T", none⟩),
        JsMap.empty⟩ ⟨3, true⟩ "y,z").state.subscribers.get "y"
      = (⟨JsMap.set JsMap.empty "y" (some ⟨none, none, none, some "T", none⟩),
          JsMap.empty⟩ : ServerState).subscribers.get "y" :=
  events_fast_path_not_registered
    ⟨JsMap.set JsMap.empty "y" (some ⟨none, none, none, some "T", none⟩), JsMap.empty⟩
    ⟨3, true⟩ "y,z" "y" (some ⟨none, none, none, some "T", none⟩) (by decide) (by decide)

/-! ### Claim theorems: the webhook ingestion endpoint (C1, C3, C10) -/

/-- C1 counterexample: with a record already stored for job `j`, a later
valid webhook for `j` carrying a different clip replaces the stored
record — the second write is not a no-op, so the originally stored record
does not survive. -/
theorem webhook_second_write_overwrites :
    (sunoCallback
        ⟨JsMap.set JsMap.empty "j" (some ⟨none, none, none, some "first", none⟩),
          JsMap.empty⟩
        ⟨some [⟨none, none, none, some "second", none⟩], some "j", none⟩).state.resultsStore.get
        "j"
      = some (some ⟨none, none, none, some "second", none⟩) ∧
    (⟨none, none, none, some "second", none⟩ : Clip)
      ≠ ⟨none, none, none, some "first", none⟩ := by
  decide

/-- C1 amended: resolution via the webhook path is last-writer-wins, not
first-writer-wins: on any valid payload the handler unconditionally stores
the first clip under the job identifier (`Map.set`, overwriting any
previously stored record) and still responds 200 — no error is raised
either way. -/
theorem webhook_resolution_last_writer_wins (st : ServerState) (clips : List Clip)
    (t1 t2 : Option String) (h : jsTruthy (jsOr t1 t2) = true) :
    (sunoCallback st ⟨some clips, t1, t2⟩).state.resultsStore
        = st.resultsStore.set ((jsOr t1 t2).getD "") clips.head? ∧
    (sunoCallback st ⟨some clips, t1, t2⟩).response = some 200 := by
  unfold sunoCallback
  simp only [h, if_true]
  exact ⟨pushSSE_resultsStore _ _ _ _, by trivial⟩

/-- Witness for the amended C1: a second webhook for an already-resolved
id overwrites and answers 200. -/
theorem webhook_resolution_last_writer_wins_witness :
    (sunoCallback
        ⟨JsMap.set JsMap.empty "k" (some ⟨none, none, none, some "old", none⟩),
          JsMap.empty⟩
        ⟨some [⟨none, none, none, some "new", none⟩], some "k", none⟩).state.resultsStore
      = (JsMap.set JsMap.empty "k"
          (some ⟨none, none, none, some "old", none⟩)).set
          ((jsOr (some "k") none).getD "")
          ([(⟨none, none, none, some "new", none⟩ : Clip)].head?) ∧
    (sunoCallback
        ⟨JsMap.set JsMap.empty "k" (some ⟨none, none, none, some "old", none⟩),
          JsMap.empty⟩
        ⟨some [⟨none, none, none, some "new", none⟩], some "k", none⟩).response
      = some 200 :=
  webhook_resolution_last_writer_wins
    ⟨JsMap.set JsMap.empty "k" (some ⟨none, none, none, some "old", none⟩), JsMap.empty⟩
    [⟨none, none, none, some "new", none⟩] (some "k") none (by decide)

/-- C3 (code bug): a payload without a valid clip list is answered 400
with no state change; but a payload with a valid clip list and no truthy
job identifier makes the handler return without sending any response at
all (no client-error status), also with no state change.  The claimed
client-error response on the missing-identifier path is what the code
fails to produce. -/
theorem webhook_malformed_no_mutation_but_silent (st : ServerState) (clips : List Clip)
    (t1 t2 : Option String) (h1 : jsTruthy t1 = false) (h2 : jsTruthy t2 = false) :
    (sunoCallback st ⟨some clips, t1, t2⟩).response = none ∧
    (sunoCallback st ⟨some clips, t1, t2⟩).state.resultsStore = st.resultsStore ∧
    (sunoCallback st ⟨some clips, t1, t2⟩).state.subscribers = st.subscribers ∧
    (∀ st' : ServerState,
      (sunoCallback st' ⟨none, t1, t2⟩).response = some 400 ∧
      (sunoCallback st' ⟨none, t1, t2⟩).state.resultsStore = st'.resultsStore ∧
      (sunoCallback st' ⟨none, t1, t2⟩).state.subscribers = st'.subscribers) := by
  have hi : jsTruthy (jsOr t1 t2) = false := by
    unfold jsOr
    rw [h1]
    simpa using h2
  refine ⟨?_, ?_, ?_, fun st' => ⟨rfl, rfl, rfl⟩⟩ <;> simp [sunoCallback, hi]

/-- Witness for C3: a payload with one clip and no task id anywhere is
dropped silently and mutates nothing. -/
theorem webhook_malformed_no_mutation_but_silent_witness :
    (sunoCallback ⟨JsMap.empty, JsMap.empty⟩
        ⟨some [⟨none, none, none, some "S", none⟩], none, none⟩).response = none ∧
    (sunoCallback ⟨JsMap.empty, JsMap.empty⟩
        ⟨some [⟨none, none, none, some "S", none⟩], none, none⟩).state.resultsStore
      = (⟨JsMap.empty, JsMap.empty⟩ : ServerState).resultsStore ∧
    (sunoCallback ⟨JsMap.empty, JsMap.empty⟩
        ⟨some [⟨none, none, none, some "S", none⟩], none, none⟩).state.subscribers
      = (⟨JsMap.empty, JsMap.empty⟩ : ServerState).subscribers ∧
    (∀ st' : ServerState,
      (sunoCallback st' ⟨none, none, none⟩).response = some 400 ∧
      (sunoCallback st' ⟨none, none, none⟩).state.resultsStore = st'.resultsStore ∧
      (sunoCallback st' ⟨none, none, none⟩).state.subscribers = st'.subscribers) :=
  webhook_malformed_no_mutation_but_silent ⟨JsMap.empty, JsMap.empty⟩
    [⟨none, none, none, some "S", none⟩] none none (by decide) (by decide)

/-- C10: a webhook payload whose clip list is present but empty and which
carries a job identifier is accepted: the handler answers 200, stores
`clips[0]` — i.e. the JS `undefined` — under the identifier (so the
identifier counts as resolved from then on: `has` is true), and the
Subscription Registry no longer holds an entry for the identifier. -/
theorem webhook_empty_clip_list_accepted (st : ServerState) (i : String)
    (h : i ≠ "") :
    (sunoCallback st ⟨some [], some i, none⟩).response = some 200 ∧
    (sunoCallback st ⟨some [], some i, none⟩).state.resultsStore.get i = some none ∧
    (sunoCallback st ⟨some [], some i, none⟩).state.resultsStore.has i = true ∧
    (sunoCallback st ⟨some [], some i, none⟩).state.subscribers.get i = none := by
  have ht : jsTruthy (jsOr (some i) none) = true := by
    simp [jsOr, jsTruthy, h]
  have hid : (jsOr (some i) none).getD "" = i := by
    simp [jsOr, jsTruthy, h]
  have hstore : (sunoCallback st ⟨some [], some i, none⟩).state.resultsStore
      = st.resultsStore.set i (([] : List Clip).head?) := by
    unfold sunoCallback
    simp only [ht, if_true, hid]
    exact pushSSE_resultsStore _ _ _ _
  have hsubs : (sunoCallback st ⟨some [], some i, none⟩).state.subscribers.get i
      = none := by
    unfold sunoCallback
    simp only [ht, if_true, hid]
    exact pushSSE_complete_clears _ _ _
  refine ⟨?_, ?_, ?_, hsubs⟩
  · unfold sunoCallback
    simp [ht]
  · rw [hstore]
    exact JsMap.get_set_eq _ _ _
  · simp only [JsMap.has, hstore]
    simp [JsMap.set]

/-- Witness for C10: the payload `{data: {data: [], task_id: "t"}}` is
accepted, marks `t` resolved with an undefined record, and leaves no
subscription entry for `t`. -/
theorem webhook_empty_clip_list_accepted_witness :
    (sunoCallback ⟨JsMap.empty, JsMap.empty⟩ ⟨some [], some "t", none⟩).response
        = some 200 ∧
    (sunoCallback ⟨JsMap.empty, JsMap.empty⟩
        ⟨some [], some "t", none⟩).state.resultsStore.get "t" = some none ∧
    (sunoCallback ⟨JsMap.empty, JsMap.empty⟩
        ⟨some [], some "t", none⟩).state.resultsStore.has "t" = true ∧
    (sunoCallback ⟨JsMap.empty, JsMap.empty⟩
        ⟨some [], some "t", none⟩).state.subscribers.get "t" = none :=
  webhook_empty_clip_list_accepted ⟨JsMap.empty, JsMap.empty⟩ "t" (by decide)

/-! ### Claim theorems: the reconciliation endpoint (C2, C9) -/

/-- The clips of an API response that the `/status` backfill loop actually
accepts: status `complete` and a truthy `clip.id || clip.clipId`. -/
def completedOf (list : List Clip) : List (Option Clip) :=
  list.filterMap (fun c =>
    if c.status = some "complete" then
      if jsTruthy (jsOr c.id c.clipId) then some (some c) else none
    else none)

/-- The backfill loop appends exactly the accepted clips to `found`. -/
theorem backfill_found_append :
    ∀ (list : List Clip) (acc : ServerState × List (Option Clip) × List Delivery),
      (list.foldl backfillStep acc).2.1 = acc.2.1 ++ completedOf list := by
  intro list
  induction list with
  | nil => intro acc; simp [completedOf]
  | cons c rest ih =>
    intro acc
    rw [List.foldl_cons, ih]
    by_cases h1 : c.status = some "complete"
    · by_cases h2 : jsTruthy (jsOr c.id c.clipId) = true
      · simp [backfillStep, completedOf, h1, h2, List.filterMap_cons]
      · simp [backfillStep, completedOf, h1, h2, List.filterMap_cons]
    · simp [backfillStep, completedOf, h1, List.filterMap_cons]

/-- C2 counterexample: ids `a,b` with `a` already resolved and the
collaborator reporting `b` complete.  `found` does contain both records,
but `pending` is `["b"]`, not empty: the backfill loop never removes newly
resolved ids from the pending list computed before the outbound query. -/
theorem status_backfilled_id_stays_pending :
    (statusHandler
        ⟨JsMap.set JsMap.empty "a" (some ⟨none, some "a", none, some "A", none⟩),
          JsMap.empty⟩ "a,b"
        (some [⟨some "complete", some "b", none, some "B", none⟩])).found
      = [some ⟨none, some "a", none, some "A", none⟩,
         some ⟨some "complete", some "b", none, some "B", none⟩] ∧
    (statusHandler
        ⟨JsMap.set JsMap.empty "a" (some ⟨none, some "a", none, some "A", none⟩),
          JsMap.empty⟩ "a,b"
        (some [⟨some "complete", some "b", none, some "B", none⟩])).pending
      = ["b"] := by
  decide

/-- C2 amended: on a reconciliation request with a non-empty id set and a
successful collaborator response, `found` is the locally resolved records
followed by every clip the collaborator reported complete (with a usable
id), but `pending` is exactly the set of ids unresolved at partition time:
ids newly resolved by the backfill stay in `pending` (appearing in both
lists). -/
theorem status_found_extends_pending_stays (st : ServerState) (raw : String)
    (list : List Clip) (h1 : parseIds raw ≠ [])
    (h2 : (statusPartition st.resultsStore (parseIds raw)).2 ≠ []) :
    (statusHandler st raw (some list)).found
        = (statusPartition st.resultsStore (parseIds raw)).1 ++ completedOf list ∧
    (statusHandler st raw (some list)).pending
        = (statusPartition st.resultsStore (parseIds raw)).2 := by
  have hlen : ¬(parseIds raw).length = 0 := by
    simpa [List.length_eq_zero] using h1
  have hplen : (statusPartition st.resultsStore (parseIds raw)).2.length > 0 :=
    List.length_pos.mpr h2
  unfold statusHandler
  simp only [hlen, if_false, hplen, if_true]
  exact ⟨backfill_found_append list _, by trivial⟩

/-- Witness for the amended C2 at the `a,b` scenario. -/
theorem status_found_extends_pending_stays_witness :
    (statusHandler
        ⟨JsMap.set JsMap.empty "a" (some ⟨none, some "a", none, some "QA", none⟩),
          JsMap.empty⟩ "a,b"
        (some [⟨some "complete", some "b", none, some "QB", none⟩])).found
      = (statusPartition
          (JsMap.set JsMap.empty "a" (some ⟨none, some "a", none, some "QA", none⟩))
          (parseIds "a,b")).1
        ++ completedOf [⟨some "complete", some "b", none, some "QB", none⟩] ∧
    (statusHandler
        ⟨JsMap.set JsMap.empty "a" (some ⟨none, some "a", none, some "QA", none⟩),
          JsMap.empty⟩ "a,b"
        (some [⟨some "complete", some "b", none, some "QB", none⟩])).pending
      = (statusPartition
          (JsMap.set JsMap.empty "a" (some ⟨none, some "a", none, some "QA", none⟩))
          (parseIds "a,b")).2 :=
  status_found_extends_pending_stays
    ⟨JsMap.set JsMap.empty "a" (some ⟨none, some "a", none, some "QA", none⟩),
      JsMap.empty⟩ "a,b" [⟨some "complete", some "b", none, some "QB", none⟩]
    (by decide) (by decide)

/-- C9: when the outbound third-party query fails (the `catch` only logs),
the reconciliation endpoint still answers 200 with the already-known
resolved records as `found`, all unresolved requested ids as `pending`, an
unchanged server state, and no fan-out writes. -/
theorem status_api_failure_degrades (st : ServerState) (raw : String)
    (h : parseIds raw ≠ []) :
    statusHandler st raw none
      = ⟨st, [], 200, (statusPartition st.resultsStore (parseIds raw)).1,
          (statusPartition st.resultsStore (parseIds raw)).2⟩ := by
  have hlen : ¬(parseIds raw).length = 0 := by
    simpa [List.length_eq_zero] using h
  unfold statusHandler
  simp only [hlen, if_false]
  by_cases hp : (statusPartition st.resultsStore (parseIds raw)).2.length > 0
  · simp only [hp, if_true]
  · simp only [hp, if_false]

/-- Witness for C9: one resolved and one unresolved id, failing outbound
query. -/
theorem status_api_failure_degrades_witness :
    statusHandler
        ⟨JsMap.set JsMap.empty "a" (some ⟨none, some "a", none, some "WA", none⟩),
          JsMap.empty⟩ "a,b" none
      = ⟨⟨JsMap.set JsMap.empty "a" (some ⟨none, some "a", none, some "WA", none⟩),
            JsMap.empty⟩, [], 200,
          (statusPartition
            (JsMap.set JsMap.empty "a" (some ⟨none, some "a", none, some "WA", none⟩))
            (parseIds "a,b")).1,
          (statusPartition
            (JsMap.set JsMap.empty "a" (some ⟨none, some "a", none, some "WA", none⟩))
            (parseIds "a,b")).2⟩ :=
  status_api_failure_degrades
    ⟨JsMap.set JsMap.empty "a" (some ⟨none, some "a", none, some "WA", none⟩),
      JsMap.empty⟩ "a,b" (by decide)
